import Mathlib

/-!
Shallow embedding of the support-ticket assignment core
(`priority_analyzer.py` and `ticket_assignment_system.py`).

Numbers: the Python code computes with floats whose values here are all small
exact decimals; we model them with `ℚ` (exact arithmetic).  Strings are Lean
`String`s; Python's `str.lower` is modelled by `Char.toLower` mapping (the
ticket data is ASCII).  Python `dict`s keyed by strings are modelled either as
association lists (iteration order = insertion order, which Python guarantees)
or, for the mutable workload map, as `String → Option ℤ` where `none` models a
missing key (a `KeyError` on `+=`).  The rationale string of `PriorityResult`
uses `%.1f` decimal formatting and is not modelled; no property below concerns
it.  All other fields and all control flow are translated statement by
statement from the source.
-/

/-- `PriorityLevel` enum from `priority_analyzer.py` (CRITICAL=1 … LOW=4). -/
inductive PriorityLevel where
  | CRITICAL
  | HIGH
  | MEDIUM
  | LOW
deriving DecidableEq

/-- The `.value` of the Python enum member. -/
def levelValue : PriorityLevel → ℕ
  | .CRITICAL => 1
  | .HIGH => 2
  | .MEDIUM => 3
  | .LOW => 4

/-- Python regex `\w` on ASCII text: letters, digits, underscore. -/
def isWordChar (c : Char) : Bool := c.isAlphanum || c == '_'

/-- Python `str.lower()` on ASCII text. -/
def lowerStr (s : String) : String := s.map Char.toLower

/-- Does `kw` occur literally at the front of `text`? -/
def matchesAt : List Char → List Char → Bool
  | [], _ => true
  | _ :: _, [] => false
  | k :: ks, c :: cs => k == c && matchesAt ks cs

/-- `\b` before the match: start of string or a non-word character. -/
def boundaryOk : Option Char → Bool
  | none => true
  | some c => !isWordChar c

/-- `\b` after the match: end of string or a non-word character. -/
def tailBoundary (kw text : List Char) : Bool :=
  match text.drop kw.length with
  | [] => true
  | c :: _ => !isWordChar c

/-- Scan `text` for an occurrence of `kw` delimited by word boundaries;
`prev` is the character just before the current position. -/
def findFrom (kw : List Char) : Option Char → List Char → Bool
  | _, [] => false
  | prev, c :: cs =>
    (boundaryOk prev && matchesAt kw (c :: cs) && tailBoundary kw (c :: cs))
      || findFrom kw (some c) cs

/-- `_find_keyword_in_text` / the `re.search(r'\b'+re.escape(kw)+r'\b', text)`
calls: case-insensitive whole-word match.  (Every keyword in the tables below
starts and ends with a word character, for which the `\b` semantics is exactly
the two boundary checks above.) -/
def findKeywordInText (keyword text : String) : Bool :=
  findFrom (lowerStr keyword).data none (lowerStr text).data

/-- CRITICAL keyword weights from `_initialize_keywords`. -/
def criticalKeywords : List (String × ℚ) :=
  [("down", 10), ("outage", 10), ("crashed", 9), ("unreachable", 8),
   ("offline", 8), ("not responding", 8), ("completely broken", 9),
   ("total failure", 10), ("system failure", 9), ("service unavailable", 9),
   ("cannot access", 7), ("all users affected", 8), ("widespread", 7),
   ("business critical", 9), ("production down", 10), ("emergency", 10),
   ("urgent", 8), ("immediately", 8), ("critical", 9), ("severe", 8),
   ("catastrophic", 10), ("security breach", 10), ("hacked", 10),
   ("malware", 9), ("virus", 8), ("data breach", 10),
   ("unauthorized access", 9), ("compromised", 9), ("server down", 9),
   ("network down", 9), ("database down", 10), ("backup failed", 8),
   ("corruption", 8), ("data loss", 9)]

/-- HIGH keyword weights from `_initialize_keywords`. -/
def highKeywords : List (String × ℚ) :=
  [("broken", 6), ("failing", 6), ("error", 5), ("problems", 4),
   ("issues", 4), ("not working", 6), ("malfunctioning", 6), ("stuck", 5),
   ("frozen", 6), ("slow", 4), ("performance", 4), ("timeout", 5),
   ("intermittent", 5), ("frequent", 5), ("multiple users", 5),
   ("department affected", 6), ("productivity impact", 6), ("blocking", 6),
   ("prevents work", 6), ("deadline", 7), ("presentation", 6),
   ("meeting", 5), ("client", 6), ("customer", 6), ("important", 5),
   ("asap", 6), ("soon", 4), ("today", 5), ("tomorrow", 6),
   ("cannot login", 6), ("access denied", 6), ("locked out", 6),
   ("authentication", 5), ("permissions", 4), ("hardware failure", 7),
   ("hardware", 4), ("device", 3), ("laptop", 3), ("printer", 3)]

/-- MEDIUM keyword weights from `_initialize_keywords`. -/
def mediumKeywords : List (String × ℚ) :=
  [("help", 2), ("assistance", 2), ("support", 2), ("question", 2),
   ("how to", 2), ("configure", 2), ("setup", 2), ("install", 2),
   ("update", 2), ("upgrade", 2), ("request", 2), ("need", 2),
   ("would like", 2), ("minor", 1), ("small", 1), ("quick", 2),
   ("whenever convenient", 1), ("next week", 1), ("training", 2),
   ("documentation", 2), ("clarification", 2), ("guidance", 2),
   ("maintenance", 2), ("routine", 1), ("scheduled", 1), ("planned", 1)]

/-- LOW keyword weights from `_initialize_keywords`. -/
def lowKeywords : List (String × ℚ) :=
  [("enhancement", 1), ("feature request", 1), ("improvement", 1),
   ("suggestion", 1), ("optimization", 1), ("nice to have", 0.5),
   ("when possible", 0.5), ("future", 0.5), ("eventually", 0.5),
   ("cosmetic", 0.5), ("aesthetic", 0.5), ("convenience", 1),
   ("preference", 0.5), ("general", 1), ("information", 1),
   ("inquiry", 1), ("feedback", 1)]

/-- The per-level keyword table (`self.urgency_keywords`). -/
def keywordTable : PriorityLevel → List (String × ℚ)
  | .CRITICAL => criticalKeywords
  | .HIGH => highKeywords
  | .MEDIUM => mediumKeywords
  | .LOW => lowKeywords

/-- Impact multipliers from `_initialize_impact_multipliers`. -/
def impactTable : List (String × ℚ) :=
  [("all users", 2), ("entire", 2), ("whole", 2), ("company", 2),
   ("organization", 2), ("everyone", 2), ("multiple departments", 1.8),
   ("department", 1.5), ("team", 1.3), ("group", 1.3),
   ("several users", 1.4), ("many users", 1.4), ("revenue", 2.5),
   ("business", 2), ("production", 2.5), ("customer", 2), ("client", 2),
   ("public", 2), ("external", 1.8), ("reputation", 2), ("brand", 2),
   ("compliance", 2.2), ("audit", 2), ("legal", 2.2), ("regulatory", 2.2),
   ("now", 1.8), ("immediately", 2), ("asap", 1.8), ("urgent", 1.8),
   ("today", 1.5), ("this morning", 1.6), ("right now", 2), ("before", 1.5),
   ("deadline", 1.8), ("meeting", 1.4), ("presentation", 1.6),
   ("demo", 1.5), ("again", 1.3), ("repeatedly", 1.5), ("frequently", 1.4),
   ("constantly", 1.6), ("always", 1.4), ("continuous", 1.5),
   ("ongoing", 1.4), ("persistent", 1.4)]

/-- `full_text = f"{title} {description}".lower()`. -/
def fullText (title description : String) : String :=
  lowerStr (title ++ " " ++ description)

/-- Raw keyword-weight sum for one level (the `priority_scores` loop). -/
def rawScore (ft : String) (L : PriorityLevel) : ℚ :=
  (keywordTable L).foldl
    (fun acc p => if findKeywordInText p.1 ft then acc + p.2 else acc) 0

/-- The `impact_multiplier` loop: running `max`, starting from `1.0`. -/
def impactMult (ft : String) : ℚ :=
  impactTable.foldl
    (fun m p => if findKeywordInText p.1 ft then max m p.2 else m) 1

/-- `final_scores[level] = priority_scores[level] * impact_multiplier`. -/
def finalScores (title description : String) (L : PriorityLevel) : ℚ :=
  rawScore (fullText title description) L * impactMult (fullText title description)

/-- `max(scores.values())` over the four levels. -/
def maxOf4 (s : PriorityLevel → ℚ) : ℚ :=
  max (max (s .CRITICAL) (s .HIGH)) (max (s .MEDIUM) (s .LOW))

/-- `_determine_winning_priority`: default MEDIUM on all-zero, otherwise the
first level (in enum insertion order) attaining the maximum score. -/
def determineWinningPriority (s : PriorityLevel → ℚ) : PriorityLevel :=
  if maxOf4 s = 0 then .MEDIUM
  else if s .CRITICAL = maxOf4 s then .CRITICAL
  else if s .HIGH = maxOf4 s then .HIGH
  else if s .MEDIUM = maxOf4 s then .MEDIUM
  else if s .LOW = maxOf4 s then .LOW
  else .MEDIUM

/-- Keywords of one level matched in `ft`, in table order. -/
def matchedIn (ft : String) (L : PriorityLevel) : List String :=
  ((keywordTable L).filter (fun p => findKeywordInText p.1 ft)).map Prod.fst

/-- The `matched_keywords` list accumulated over the four levels in
dict-insertion order (duplicates kept, as in the source). -/
def matchedKeywordList (ft : String) : List String :=
  matchedIn ft .CRITICAL ++ matchedIn ft .HIGH ++ matchedIn ft .MEDIUM
    ++ matchedIn ft .LOW

/-- `PriorityResult` dataclass (rationale string omitted, see the header). -/
structure PriorityResult where
  priority_level : PriorityLevel
  priority_score : ℚ
  matched_keywords : List String
deriving DecidableEq

/-- `PriorityAnalyzer.analyze_priority`. -/
def analyzePriority (title description : String) : PriorityResult :=
  let ft := fullText title description
  let fs := fun L => rawScore ft L * impactMult ft
  let w := determineWinningPriority fs
  ⟨w, fs w, matchedKeywordList ft⟩

/-- Agent record (`agents` entries of the dataset). -/
structure Agent where
  agent_id : String
  name : String
  skills : List (String × ℤ)
  availability_status : String
  experience_level : ℤ
  current_load : ℤ
deriving DecidableEq

/-- Ticket record (`tickets` entries; the creation timestamp is unused by the
core and omitted). -/
structure Ticket where
  ticket_id : String
  title : String
  description : String
deriving DecidableEq

/-- `AgentAssignment` dataclass.  `priority_level` stores the enum member
(the source stores its `.name`, an equivalent representation). -/
structure AgentAssignment where
  ticket_id : String
  assigned_agent_id : String
  rationale : String
  priority_level : PriorityLevel
  priority_score : ℚ
  skill_match_score : ℚ
  workload_factor : ℚ
  final_score : ℚ
deriving DecidableEq

/-- `_initialize_skill_keywords`. -/
def skillKeywords : List (String × List String) :=
  [("Networking",
    ["vpn", "network", "networking", "router", "switch", "firewall",
     "dns", "dhcp", "tcp", "ip", "subnet", "vlan", "wifi", "wireless",
     "connection", "connectivity", "ping", "traceroute", "bandwidth"]),
   ("Linux_Administration",
    ["linux", "ubuntu", "centos", "redhat", "bash", "shell", "terminal",
     "ssh", "sudo", "chmod", "chown", "cron", "systemd", "apache",
     "nginx", "mysql", "postgresql", "server", "unix"]),
   ("Cloud_AWS",
    ["aws", "amazon", "ec2", "s3", "cloudformation", "lambda",
     "rds", "vpc", "cloudwatch", "iam", "route53", "elb",
     "auto scaling", "azure", "cloud", "hosting"]),
   ("VPN_Troubleshooting",
    ["vpn", "tunnel", "ipsec", "l2tp", "pptp", "openvpn",
     "remote access", "site-to-site", "authentication",
     "concentrator", "client", "endpoint"]),
   ("Hardware_Diagnostics",
    ["hardware", "diagnostic", "memory", "ram", "cpu", "disk",
     "ssd", "hdd", "motherboard", "power supply", "fan",
     "temperature", "bios", "uefi", "boot", "POST"]),
   ("Windows_Server_2022",
    ["windows server", "server 2022", "server 2019", "server 2016",
     "iis", "hyper-v", "powershell", "registry", "event viewer",
     "services", "roles", "features"]),
   ("Active_Directory",
    ["active directory", "ad", "domain controller", "dc",
     "group policy", "gpo", "ldap", "kerberos", "ntlm",
     "forest", "domain", "ou", "user account", "computer account"]),
   ("Virtualization_VMware",
    ["vmware", "vsphere", "vcenter", "esxi", "virtual machine",
     "vm", "hypervisor", "virtualization", "snapshot",
     "vmotion", "ha", "drs"]),
   ("Software_Licensing",
    ["license", "licensing", "activation", "key", "volume licensing",
     "cal", "subscription", "office 365", "microsoft 365"]),
   ("Network_Security",
    ["security", "firewall", "intrusion", "malware", "antivirus",
     "threat", "vulnerability", "patch", "encryption",
     "certificate", "ssl", "tls"]),
   ("Database_SQL",
    ["database", "sql", "mysql", "postgresql", "oracle",
     "sql server", "query", "table", "index", "backup",
     "restore", "replication"]),
   ("Firewall_Configuration",
    ["firewall", "iptables", "pfsense", "checkpoint",
     "fortigate", "cisco asa", "rules", "acl", "port",
     "protocol", "block", "allow"]),
   ("Identity_Management",
    ["identity", "sso", "saml", "oauth", "ldap",
     "authentication", "authorization", "mfa", "2fa",
     "identity provider", "federation"]),
   ("SaaS_Integrations",
    ["saas", "integration", "api", "webhook", "connector",
     "salesforce", "servicenow", "slack", "teams",
     "sharepoint", "onedrive"]),
   ("Microsoft_365",
    ["microsoft 365", "office 365", "outlook", "word",
     "excel", "powerpoint", "teams", "sharepoint",
     "onedrive", "exchange", "azure ad"]),
   ("SharePoint_Online",
    ["sharepoint", "sharepoint online", "site collection",
     "document library", "list", "workflow", "permissions",
     "search", "content type"]),
   ("PowerShell_Scripting",
    ["powershell", "script", "cmdlet", "pipeline",
     "automation", "dsc", "remoting", "ise",
     "gallery", "module"]),
   ("Laptop_Repair",
    ["laptop", "notebook", "screen", "keyboard", "touchpad",
     "battery", "charger", "adapter", "hinge", "repair"]),
   ("Printer_Support",
    ["printer", "printing", "toner", "ink", "paper jam",
     "queue", "driver", "spooler", "network printer"])]

/-- `self.skill_keywords.get(skill_name, [])` followed by the keyword-match
count of the inner loop of `_calculate_skill_match`. -/
def skillMatchCount (ft : String) (skillName : String) : ℕ :=
  ((skillKeywords.lookup skillName).getD []).countP
    (fun kw => findKeywordInText kw ft)

/-- Ticket text as lowered by `_calculate_skill_match`. -/
def ticketText (t : Ticket) : String :=
  lowerStr t.title ++ " " ++ lowerStr t.description

/-- The fold step of `_calculate_skill_match`: accumulate
`(total_score, matched_skills)` over the declared skills. -/
def skillFoldStep (ft : String) (acc : ℚ × ℕ) (p : String × ℤ) : ℚ × ℕ :=
  if 0 < skillMatchCount ft p.1 then
    (acc.1 + (p.2 : ℚ) / 10 * min ((skillMatchCount ft p.1 : ℚ) / 3) 1,
     acc.2 + 1)
  else acc

/-- `_calculate_skill_match`: fold over the declared skills accumulating
`(total_score, matched_skills)`, then normalize. -/
def calculateSkillMatch (t : Ticket) (a : Agent) : ℚ :=
  let r := a.skills.foldl (skillFoldStep (ticketText t)) (0, 0)
  if r.2 = 0 then 0 else min (r.1 / (r.2 : ℚ)) 1

/-- `_get_priority_multiplier` (all four enum members are in the dict, so the
`0.6` default is never consulted). -/
def priorityMultiplier : PriorityLevel → ℚ
  | .CRITICAL => 1
  | .HIGH => 0.8
  | .MEDIUM => 0.6
  | .LOW => 0.4

/-- `agent.get('availability_status', '').lower() == 'available'`. -/
def isAvailable (a : Agent) : Bool :=
  lowerStr a.availability_status == "available"

/-- The candidate evaluation inside the agent loop: skill relevance. -/
def evalSkill (t : Ticket) (a : Agent) : ℚ := calculateSkillMatch t a

/-- `current_workloads.get(agent['agent_id'], 0)`. -/
def loadOf (wl : String → Option ℤ) (a : Agent) : ℤ :=
  (wl a.agent_id).getD 0

/-- `workload_factor = max(0, (8 - current_load) / 8)`. -/
def evalWorkloadFactor (wl : String → Option ℤ) (a : Agent) : ℚ :=
  max 0 ((8 - (loadOf wl a : ℚ)) / 8)

/-- `experience_bonus = min(experience_level / 15, 1.0)`. -/
def evalExperienceBonus (a : Agent) : ℚ :=
  min ((a.experience_level : ℚ) / 15) 1

/-- The candidate's `final_score` (weighted composite). -/
def compositeScore (t : Ticket) (pr : PriorityResult) (wl : String → Option ℤ)
    (a : Agent) : ℚ :=
  evalSkill t a * 0.4 + evalWorkloadFactor wl a * 0.25
    + evalExperienceBonus a * 0.2
    + priorityMultiplier pr.priority_level * 0.15

/-- `_generate_assignment_rationale`. -/
def generateAssignmentRationale (a : Agent) (skillScore workloadFactor
    experienceBonus : ℚ) (pr : PriorityResult) (currentLoad : ℤ) : String :=
  let _ := experienceBonus
  let p1 := "Assigned to " ++ a.name ++ " (" ++ a.agent_id ++ ")"
  let p2 :=
    if 0.7 < skillScore then ["based on excellent skill match"]
    else if 0.4 < skillScore then ["based on good skill match"]
    else if 0.1 < skillScore then ["based on partial skill match"]
    else ["due to availability"]
  let _ := workloadFactor
  let p3 :=
    if 10 ≤ a.experience_level then
      ["and high experience level (" ++ toString a.experience_level
        ++ " years)"]
    else if 5 ≤ a.experience_level then
      ["and good experience (" ++ toString a.experience_level ++ " years)"]
    else []
  let p4 :=
    if currentLoad ≤ 2 then ["with low current workload"]
    else if currentLoad ≤ 4 then ["with moderate workload"]
    else if 6 < currentLoad then ["despite high workload (best available)"]
    else []
  let p5 :=
    if pr.priority_level = .CRITICAL ∨ pr.priority_level = .HIGH then
      ["for this " ++ (match pr.priority_level with
        | .CRITICAL => "CRITICAL"
        | .HIGH => "HIGH"
        | .MEDIUM => "MEDIUM"
        | .LOW => "LOW") ++ " priority ticket"]
    else []
  String.intercalate " " (p1 :: (p2 ++ p3 ++ p4 ++ p5)) ++ "."

/-- The five local variables of the agent loop in `_assign_single_ticket`. -/
structure SelState where
  best_agent : Option Agent
  best_score : ℚ
  best_rationale : String
  best_skill : ℚ
  best_wf : ℚ

/-- The state a candidate update leaves behind. -/
def chosenState (t : Ticket) (pr : PriorityResult) (wl : String → Option ℤ)
    (a : Agent) : SelState :=
  ⟨some a, compositeScore t pr wl a,
   generateAssignmentRationale a (evalSkill t a) (evalWorkloadFactor wl a)
     (evalExperienceBonus a) pr (loadOf wl a),
   evalSkill t a, evalWorkloadFactor wl a⟩

/-- One iteration of the agent loop. -/
def selStep (t : Ticket) (pr : PriorityResult) (wl : String → Option ℤ)
    (s : SelState) (a : Agent) : SelState :=
  if isAvailable a = false then s
  else if s.best_score < compositeScore t pr wl a then chosenState t pr wl a
  else s

/-- Initial values of the loop variables. -/
def initSel : SelState := ⟨none, -1, "", 0, 0⟩

/-- The tail of `_assign_single_ticket`: fallback selection and record
construction from the final loop state `s`. -/
def finishAssignment (t : Ticket) (agents : List Agent)
    (pr : PriorityResult) (s : SelState) : AgentAssignment :=
  match s.best_agent with
  | some a =>
    ⟨t.ticket_id, a.agent_id, s.best_rationale, pr.priority_level,
     pr.priority_score, s.best_skill, s.best_wf, s.best_score⟩
  | none =>
    match agents.filter (fun a => isAvailable a) with
    | a :: _ =>
      ⟨t.ticket_id, a.agent_id,
       "Assigned to " ++ a.name
         ++ " (first available agent) due to no strong skill matches.",
       pr.priority_level, pr.priority_score, s.best_skill, s.best_wf,
       s.best_score⟩
    | [] =>
      match agents with
      | a :: _ =>
        ⟨t.ticket_id, a.agent_id,
         "Emergency assignment - no available agents found.",
         pr.priority_level, pr.priority_score, s.best_skill, s.best_wf,
         s.best_score⟩
      | [] =>
        ⟨t.ticket_id, "agent_001",
         "Emergency assignment - no available agents found.",
         pr.priority_level, pr.priority_score, s.best_skill, s.best_wf,
         s.best_score⟩

/-- `_assign_single_ticket`: run the agent loop from the initial state, then
build the record (with the two fallbacks for an empty candidate pool). -/
def assignSingleTicket (t : Ticket) (agents : List Agent)
    (wl : String → Option ℤ) : AgentAssignment :=
  finishAssignment t agents (analyzePriority t.title t.description)
    (agents.foldl (selStep t (analyzePriority t.title t.description) wl)
      initSel)

/-- The sort key `(x[1].priority_level.value, -x[1].priority_score)`. -/
def ticketKey (t : Ticket) : ℕ × ℚ :=
  let pr := analyzePriority t.title t.description
  (levelValue pr.priority_level, -pr.priority_score)

/-- Lexicographic order on the sort key (Python tuple comparison). -/
def ticketLE (a b : Ticket) : Prop :=
  (ticketKey a).1 < (ticketKey b).1
    ∨ ((ticketKey a).1 = (ticketKey b).1 ∧ (ticketKey a).2 ≤ (ticketKey b).2)

instance : DecidableRel ticketLE := fun a b => by
  unfold ticketLE; infer_instance

instance : IsTotal Ticket ticketLE where
  total a b := by
    unfold ticketLE
    rcases lt_trichotomy (ticketKey a).1 (ticketKey b).1 with h | h | h
    · exact Or.inl (Or.inl h)
    · rcases le_total (ticketKey a).2 (ticketKey b).2 with h2 | h2
      · exact Or.inl (Or.inr ⟨h, h2⟩)
      · exact Or.inr (Or.inr ⟨h.symm, h2⟩)
    · exact Or.inr (Or.inl h)

instance : IsTrans Ticket ticketLE where
  trans a b c hab hbc := by
    unfold ticketLE at *
    rcases hab with h1 | ⟨h1, h1'⟩ <;> rcases hbc with h2 | ⟨h2, h2'⟩
    · exact Or.inl (h1.trans h2)
    · exact Or.inl (h2 ▸ h1)
    · exact Or.inl (h1 ▸ h2)
    · exact Or.inr ⟨h1.trans h2, h1'.trans h2'⟩

/-- `_prioritize_tickets`: a stable sort by `ticketKey` (Python `list.sort`
is stable; insertion sort over the total preorder `ticketLE` is proved stable
below, which pins the same output). -/
def prioritizeTickets (tickets : List Ticket) : List Ticket :=
  tickets.insertionSort ticketLE

/-- `{agent['agent_id']: agent.get('current_load', 0) for agent in agents}`:
later duplicates overwrite earlier ones, absent keys are `none`. -/
def updateWl (m : String → Option ℤ) (k : String) (v : ℤ) :
    String → Option ℤ :=
  fun x => if x == k then some v else m x

/-- Initial workload dict. -/
def initWorkloads (agents : List Agent) : String → Option ℤ :=
  agents.foldl (fun m a => updateWl m a.agent_id a.current_load)
    (fun _ => none)

/-- The per-ticket loop of `assign_tickets`.  The lookup before `+= 1` models
Python's `agent_workloads[assignment.assigned_agent_id] += 1`, which raises
`KeyError` (here: `none`) if the id is not a key of the dict. -/
def runAssign (agents : List Agent) :
    List Ticket → (String → Option ℤ) → Option (List AgentAssignment)
  | [], _ => some []
  | t :: ts, wl =>
    let r := assignSingleTicket t agents wl
    match wl r.assigned_agent_id with
    | none => none
    | some n =>
      match runAssign agents ts (updateWl wl r.assigned_agent_id (n + 1)) with
      | none => none
      | some rest => some (r :: rest)

/-- The dataset handed to `assign_tickets`. -/
structure Dataset where
  agents : List Agent
  tickets : List Ticket

/-- `assign_tickets` (`some records` on normal return, `none` on a raised
`KeyError`). -/
def assignTickets (d : Dataset) : Option (List AgentAssignment) :=
  runAssign d.agents (prioritizeTickets d.tickets) (initWorkloads d.agents)

instance : Fintype PriorityLevel where
  elems := {.CRITICAL, .HIGH, .MEDIUM, .LOW}
  complete := by intro x; cases x <;> simp

/-- Folding keyword weights starting from a non-negative accumulator stays
non-negative when every table weight is non-negative. -/
lemma foldl_add_nonneg (ft : String) (l : List (String × ℚ))
    (h : ∀ p ∈ l, 0 ≤ p.2) :
    ∀ acc : ℚ, 0 ≤ acc →
      0 ≤ l.foldl
        (fun acc p => if findKeywordInText p.1 ft then acc + p.2 else acc)
        acc := by
  induction l with
  | nil => intro acc hacc; simpa using hacc
  | cons p l ih =>
    intro acc hacc
    simp only [List.foldl_cons]
    refine ih (fun q hq => h q (List.mem_cons_of_mem _ hq)) _ ?_
    by_cases hc : findKeywordInText p.1 ft
    · simp only [hc, if_true]
      exact add_nonneg hacc (h p (List.mem_cons_self _ _))
    · simpa [hc] using hacc

/-- Every weight in every level's keyword table is non-negative. -/
lemma keywordTable_nonneg (L : PriorityLevel) : ∀ p ∈ keywordTable L, 0 ≤ p.2 := by
  cases L <;> with_unfolding_all decide

lemma rawScore_nonneg (ft : String) (L : PriorityLevel) : 0 ≤ rawScore ft L :=
  foldl_add_nonneg ft (keywordTable L) (keywordTable_nonneg L) 0 le_rfl

/-- A running-`max` fold never drops below its starting value. -/
lemma foldl_max_start_le (ft : String) (l : List (String × ℚ)) :
    ∀ m : ℚ, m ≤ l.foldl
      (fun m p => if findKeywordInText p.1 ft then max m p.2 else m) m := by
  induction l with
  | nil => intro m; simp
  | cons p l ih =>
    intro m
    simp only [List.foldl_cons]
    refine le_trans ?_ (ih _)
    by_cases hc : findKeywordInText p.1 ft <;> simp [hc]

lemma impactMult_ge_one (ft : String) : 1 ≤ impactMult ft :=
  foldl_max_start_le ft impactTable 1

lemma impactMult_pos (ft : String) : 0 < impactMult ft :=
  lt_of_lt_of_le one_pos (impactMult_ge_one ft)

/-- The running-`max` fold dominates every matching multiplier. -/
lemma foldl_max_ge_mem (ft : String) (l : List (String × ℚ)) :
    ∀ m : ℚ, ∀ p ∈ l, findKeywordInText p.1 ft = true →
      p.2 ≤ l.foldl
        (fun m p => if findKeywordInText p.1 ft then max m p.2 else m) m := by
  induction l with
  | nil => intro m p hp; simp at hp
  | cons q l ih =>
    intro m p hp hmatch
    simp only [List.foldl_cons]
    rcases List.mem_cons.mp hp with rfl | hp'
    · refine le_trans ?_ (foldl_max_start_le ft l _)
      simp [hmatch]
    · exact ih _ p hp' hmatch

/-- The running-`max` fold either keeps its starting value or returns some
matching multiplier. -/
lemma foldl_max_eq_start_or_mem (ft : String) (l : List (String × ℚ)) :
    ∀ m : ℚ,
      l.foldl (fun m p => if findKeywordInText p.1 ft then max m p.2 else m) m
          = m
        ∨ ∃ p ∈ l, findKeywordInText p.1 ft = true ∧
            l.foldl
              (fun m p => if findKeywordInText p.1 ft then max m p.2 else m) m
              = p.2 := by
  induction l with
  | nil => intro m; exact Or.inl rfl
  | cons q l ih =>
    intro m
    simp only [List.foldl_cons]
    by_cases hc : findKeywordInText q.1 ft
    · simp only [hc, if_true]
      rcases ih (max m q.2) with h | ⟨p, hp, hm, he⟩
      · rcases max_choice m q.2 with hmax | hmax
        · exact Or.inl (h.trans hmax)
        · exact Or.inr ⟨q, List.mem_cons_self _ _, hc, h.trans hmax⟩
      · exact Or.inr ⟨p, List.mem_cons_of_mem _ hp, hm, he⟩
    · simp only [hc, if_false]
      rcases ih m with h | ⟨p, hp, hm, he⟩
      · exact Or.inl h
      · exact Or.inr ⟨p, List.mem_cons_of_mem _ hp, hm, he⟩

/-- If no multiplier phrase matches, the fold returns its starting value. -/
lemma foldl_max_no_match (ft : String) (l : List (String × ℚ))
    (h : ∀ p ∈ l, findKeywordInText p.1 ft = false) :
    ∀ m : ℚ,
      l.foldl (fun m p => if findKeywordInText p.1 ft then max m p.2 else m) m
        = m := by
  induction l with
  | nil => intro m; rfl
  | cons q l ih =>
    intro m
    have hq : findKeywordInText q.1 ft = false := h q (List.mem_cons_self _ _)
    simp only [List.foldl_cons, hq, if_false]
    exact ih (fun p hp => h p (List.mem_cons_of_mem _ hp)) m

/-- Every multiplier in the impact table is strictly greater than `1`. -/
lemma impactTable_gt_one : ∀ p ∈ impactTable, (1 : ℚ) < p.2 := by
  with_unfolding_all decide

/-- C3. The impact multiplier applied by `analyze_priority` is the maximum
multiplier over all matching impact phrases — `1` exactly when no phrase
matches — and every level's final score is its raw keyword sum times that
single multiplier. -/
theorem impact_multiplier_is_max_of_matching (title description : String) :
    ((∀ p ∈ impactTable,
        findKeywordInText p.1 (fullText title description) = false) →
      impactMult (fullText title description) = 1)
    ∧ (∀ p ∈ impactTable,
        findKeywordInText p.1 (fullText title description) = true →
          p.2 ≤ impactMult (fullText title description))
    ∧ ((∃ p ∈ impactTable,
        findKeywordInText p.1 (fullText title description) = true) →
      ∃ p ∈ impactTable,
        findKeywordInText p.1 (fullText title description) = true ∧
          impactMult (fullText title description) = p.2)
    ∧ (∀ L, finalScores title description L
        = rawScore (fullText title description) L
            * impactMult (fullText title description)) := by
  set ft := fullText title description
  refine ⟨?_, ?_, ?_, fun L => rfl⟩
  · intro h
    exact foldl_max_no_match ft impactTable h 1
  · intro p hp hm
    exact foldl_max_ge_mem ft impactTable 1 p hp hm
  · rintro ⟨p, hp, hm⟩
    rcases foldl_max_eq_start_or_mem ft impactTable 1 with h1 | h
    · exfalso
      have hle : p.2 ≤ impactMult ft := foldl_max_ge_mem ft impactTable 1 p hp hm
      have : p.2 ≤ 1 := by simpa [impactMult, h1] using hle
      exact absurd (lt_of_lt_of_le (impactTable_gt_one p hp) this) (lt_irrefl 1)
    · exact h

/-- Every level's score is bounded by the four-way maximum. -/
lemma le_maxOf4 (s : PriorityLevel → ℚ) : ∀ L, s L ≤ maxOf4 s := by
  intro L
  cases L
  · exact le_trans (le_max_left _ _) (le_max_left _ _)
  · exact le_trans (le_max_right _ _) (le_max_left _ _)
  · exact le_trans (le_max_left _ _) (le_max_right _ _)
  · exact le_trans (le_max_right _ _) (le_max_right _ _)

/-- The four-way maximum is attained at one of the four levels. -/
lemma maxOf4_attained (s : PriorityLevel → ℚ) : ∃ L, maxOf4 s = s L := by
  unfold maxOf4
  rcases max_choice (max (s .CRITICAL) (s .HIGH)) (max (s .MEDIUM) (s .LOW)) with
    h | h <;> rw [h]
  · rcases max_choice (s .CRITICAL) (s .HIGH) with h' | h' <;> rw [h']
    · exact ⟨.CRITICAL, rfl⟩
    · exact ⟨.HIGH, rfl⟩
  · rcases max_choice (s .MEDIUM) (s .LOW) with h' | h' <;> rw [h']
    · exact ⟨.MEDIUM, rfl⟩
    · exact ⟨.LOW, rfl⟩

/-- Behaviour of `_determine_winning_priority` on non-negative score tables:
it returns MEDIUM when the maximum is zero, and otherwise the first level in
enumeration order attaining the maximum. -/
lemma determineWinningPriority_spec (s : PriorityLevel → ℚ) :
    (maxOf4 s = 0 → determineWinningPriority s = .MEDIUM)
    ∧ (maxOf4 s ≠ 0 →
        s (determineWinningPriority s) = maxOf4 s
        ∧ ∀ L, levelValue L < levelValue (determineWinningPriority s) →
            s L ≠ maxOf4 s) := by
  constructor
  · intro h0
    unfold determineWinningPriority
    rw [if_pos h0]
  · intro h0
    unfold determineWinningPriority
    rcases maxOf4_attained s with ⟨L0, hL0⟩
    rw [if_neg h0]
    by_cases hC : s .CRITICAL = maxOf4 s
    · rw [if_pos hC]
      refine ⟨hC, ?_⟩
      intro L hL
      cases L <;> exact absurd hL (by decide)
    · rw [if_neg hC]
      by_cases hH : s .HIGH = maxOf4 s
      · rw [if_pos hH]
        refine ⟨hH, ?_⟩
        intro L hL
        cases L
        · exact hC
        · exact absurd hL (by decide)
        · exact absurd hL (by decide)
        · exact absurd hL (by decide)
      · rw [if_neg hH]
        by_cases hM : s .MEDIUM = maxOf4 s
        · rw [if_pos hM]
          refine ⟨hM, ?_⟩
          intro L hL
          cases L
          · exact hC
          · exact hH
          · exact absurd hL (by decide)
          · exact absurd hL (by decide)
        · rw [if_neg hM]
          by_cases hLo : s .LOW = maxOf4 s
          · rw [if_pos hLo]
            refine ⟨hLo, ?_⟩
            intro L hL
            cases L
            · exact hC
            · exact hH
            · exact hM
            · exact absurd hL (by decide)
          · exfalso
            cases L0
            · exact hC hL0.symm
            · exact hH hL0.symm
            · exact hM hL0.symm
            · exact hLo hL0.symm

lemma finalScores_nonneg (title description : String) (L : PriorityLevel) :
    0 ≤ finalScores title description L :=
  mul_nonneg (rawScore_nonneg _ _) (le_of_lt (impactMult_pos _))

lemma maxOf4_eq_zero_iff (title description : String) :
    maxOf4 (finalScores title description) = 0
      ↔ ∀ L, finalScores title description L = 0 := by
  constructor
  · intro h0 L
    exact le_antisymm (h0 ▸ le_maxOf4 (finalScores title description) L)
      (finalScores_nonneg title description L)
  · intro hall
    unfold maxOf4
    rw [hall .CRITICAL, hall .HIGH, hall .MEDIUM, hall .LOW]
    simp

/-- The winner's score is the maximum final score (also in the all-zero
default case, where everything is `0`). -/
lemma winner_score_eq_max (title description : String) :
    finalScores title description
        (determineWinningPriority (finalScores title description))
      = maxOf4 (finalScores title description) := by
  by_cases h0 : maxOf4 (finalScores title description) = 0
  · rw [(determineWinningPriority_spec (finalScores title description)).1 h0]
    rw [(maxOf4_eq_zero_iff title description).mp h0 .MEDIUM, h0]
  · exact ((determineWinningPriority_spec
      (finalScores title description)).2 h0).1

/-- C2. `analyze_priority` returns the level whose final score is strictly
highest, ties resolving to the earliest level in the enumeration order
CRITICAL, HIGH, MEDIUM, LOW; if all four final scores are `0` the result is
MEDIUM with score `0`. -/
theorem classify_winner_priority (title description : String) :
    ((∀ L, finalScores title description L = 0) →
      (analyzePriority title description).priority_level = .MEDIUM
        ∧ (analyzePriority title description).priority_score = 0)
    ∧ (analyzePriority title description).priority_score
        = finalScores title description
            (analyzePriority title description).priority_level
    ∧ (∀ L, finalScores title description L
        ≤ finalScores title description
            (analyzePriority title description).priority_level)
    ∧ (¬ (∀ L, finalScores title description L = 0) →
        ∀ L, levelValue L
            < levelValue (analyzePriority title description).priority_level →
          finalScores title description L
            < finalScores title description
                (analyzePriority title description).priority_level) := by
  have hlevel : (analyzePriority title description).priority_level
      = determineWinningPriority (finalScores title description) := rfl
  have hscore : (analyzePriority title description).priority_score
      = finalScores title description
          (determineWinningPriority (finalScores title description)) := rfl
  refine ⟨?_, ?_, ?_, ?_⟩
  · intro hall
    have h0 := (maxOf4_eq_zero_iff title description).mpr hall
    refine ⟨?_, ?_⟩
    · rw [hlevel,
        (determineWinningPriority_spec (finalScores title description)).1 h0]
    · rw [hscore,
        (determineWinningPriority_spec (finalScores title description)).1 h0]
      exact hall .MEDIUM
  · rw [hscore, hlevel]
  · intro L
    rw [hlevel, winner_score_eq_max]
    exact le_maxOf4 (finalScores title description) L
  · intro hnall L hL
    have h0 : maxOf4 (finalScores title description) ≠ 0 :=
      fun h => hnall ((maxOf4_eq_zero_iff title description).mp h)
    rw [hlevel] at hL ⊢
    rw [winner_score_eq_max]
    refine lt_of_le_of_ne (le_maxOf4 (finalScores title description) L) ?_
    exact ((determineWinningPriority_spec
      (finalScores title description)).2 h0).2 L hL

/-- Witness for C2 at a concrete ticket text: "help" scores only on the
MEDIUM table, so CRITICAL's final score is strictly below the winner's. -/
theorem classify_winner_priority_witness :
    finalScores "help" "" .CRITICAL
      < finalScores "help" ""
          (analyzePriority "help" "").priority_level :=
  (classify_winner_priority "help" "").2.2.2
    (by with_unfolding_all decide) .CRITICAL (by with_unfolding_all decide)

/-- Witness for C3 at a concrete ticket text containing the impact phrase
"production": the applied multiplier is attained by a matching table entry. -/
theorem impact_multiplier_is_max_of_matching_witness :
    ∃ p ∈ impactTable,
      findKeywordInText p.1 (fullText "production" "") = true ∧
        impactMult (fullText "production" "") = p.2 :=
  (impact_multiplier_is_max_of_matching "production" "").2.2.1
    ⟨("production", 2.5), by with_unfolding_all decide,
     by with_unfolding_all decide⟩

/-- `skill_score = (skill_level / 10) * min(keyword_matches / 3, 1.0)`:
the contribution of one matched skill. -/
def skillContribution (ft : String) (p : String × ℤ) : ℚ :=
  (p.2 : ℚ) / 10 * min ((skillMatchCount ft p.1 : ℚ) / 3) 1

/-- The declared skills that produced at least one keyword match. -/
def matchedSkills (ft : String) (skills : List (String × ℤ)) :
    List (String × ℤ) :=
  skills.filter fun p => 0 < skillMatchCount ft p.1

/-- The skill fold computes the sum of matched-skill contributions and the
number of matched skills. -/
lemma skillFold_spec (ft : String) :
    ∀ (l : List (String × ℤ)) (acc : ℚ × ℕ),
      l.foldl (skillFoldStep ft) acc
        = (acc.1 + ((matchedSkills ft l).map (skillContribution ft)).sum,
           acc.2 + (matchedSkills ft l).length) := by
  intro l
  induction l with
  | nil => intro acc; simp [matchedSkills]
  | cons p l ih =>
    intro acc
    by_cases hc : 0 < skillMatchCount ft p.1
    · rw [List.foldl_cons, ih]
      unfold matchedSkills
      rw [List.filter_cons_of_pos (by simpa using hc)]
      unfold skillFoldStep skillContribution
      rw [if_pos hc]
      simp only [List.map_cons, List.sum_cons, List.length_cons,
        Prod.mk.injEq]
      constructor
      · ring
      · omega
    · rw [List.foldl_cons, ih]
      unfold matchedSkills
      rw [List.filter_cons_of_neg (by simpa using hc)]
      unfold skillFoldStep
      rw [if_neg hc]

/-- `_calculate_skill_match` computed in closed form. -/
lemma calculateSkillMatch_eq (t : Ticket) (a : Agent) :
    calculateSkillMatch t a
      = if (matchedSkills (ticketText t) a.skills).length = 0 then 0
        else min
          ((((matchedSkills (ticketText t) a.skills).map
              (skillContribution (ticketText t))).sum)
            / ((matchedSkills (ticketText t) a.skills).length : ℚ)) 1 := by
  unfold calculateSkillMatch
  rw [skillFold_spec]
  simp

lemma skillContribution_nonneg (ft : String) (p : String × ℤ)
    (h0 : 0 ≤ p.2) : 0 ≤ skillContribution ft p := by
  unfold skillContribution
  refine mul_nonneg (div_nonneg ?_ (by norm_num)) ?_
  · exact_mod_cast h0
  · exact le_min (div_nonneg (Nat.cast_nonneg _) (by norm_num)) zero_le_one

lemma skillContribution_le_one (ft : String) (p : String × ℤ)
    (h10 : p.2 ≤ 10) : skillContribution ft p ≤ 1 := by
  unfold skillContribution
  have h1 : (p.2 : ℚ) / 10 ≤ 1 := by
    rw [div_le_one (by norm_num)]
    exact_mod_cast h10
  have h2 : min ((skillMatchCount ft p.1 : ℚ) / 3) 1 ≤ 1 := min_le_right _ _
  have h3 : (0 : ℚ) ≤ min ((skillMatchCount ft p.1 : ℚ) / 3) 1 :=
    le_min (div_nonneg (Nat.cast_nonneg _) (by norm_num)) zero_le_one
  calc (p.2 : ℚ) / 10 * min ((skillMatchCount ft p.1 : ℚ) / 3) 1
      ≤ 1 * 1 := by
        exact mul_le_mul h1 h2 h3 zero_le_one
    _ = 1 := one_mul 1

/-- A declared skill that is not a key of the configuration table has zero
keyword matches. -/
lemma skillMatchCount_unknown (ft : String) (s : String)
    (h : skillKeywords.lookup s = none) : skillMatchCount ft s = 0 := by
  unfold skillMatchCount
  rw [h]
  rfl

/-- Filtering the declared skills down to those known to the configuration
table does not change which skills are matched. -/
lemma matchedSkills_filter_known (ft : String) (skills : List (String × ℤ)) :
    matchedSkills ft
        (skills.filter (fun p => (skillKeywords.lookup p.1).isSome))
      = matchedSkills ft skills := by
  unfold matchedSkills
  rw [List.filter_filter]
  refine List.filter_congr ?_
  intro p _
  cases h : skillKeywords.lookup p.1 with
  | none =>
    have hz : skillMatchCount ft p.1 = 0 := skillMatchCount_unknown ft p.1 h
    simp [hz, h]
  | some l => simp [h]

/-- C4. The skill relevance score is in `[0,1]`, equals the average
contribution `(level/10) * min(matches/3, 1)` over the skills with at least
one whole-word keyword match, is exactly `0` when no declared skill matched,
and skills absent from the configuration table are ignored entirely. -/
theorem skill_relevance_score_spec (t : Ticket) (a : Agent)
    (hlv : ∀ p ∈ a.skills, 1 ≤ p.2 ∧ p.2 ≤ 10) :
    (0 ≤ calculateSkillMatch t a ∧ calculateSkillMatch t a ≤ 1)
    ∧ (matchedSkills (ticketText t) a.skills = [] →
        calculateSkillMatch t a = 0)
    ∧ (matchedSkills (ticketText t) a.skills ≠ [] →
        calculateSkillMatch t a
          = ((matchedSkills (ticketText t) a.skills).map
                (skillContribution (ticketText t))).sum
              / ((matchedSkills (ticketText t) a.skills).length : ℚ))
    ∧ calculateSkillMatch t
          { a with skills :=
              a.skills.filter (fun p => (skillKeywords.lookup p.1).isSome) }
        = calculateSkillMatch t a := by
  have hsub : ∀ p ∈ matchedSkills (ticketText t) a.skills, p ∈ a.skills := by
    intro p hp
    exact List.mem_of_mem_filter hp
  have hc01 : ∀ c ∈ (matchedSkills (ticketText t) a.skills).map
      (skillContribution (ticketText t)), 0 ≤ c ∧ c ≤ 1 := by
    intro c hc
    rcases List.mem_map.mp hc with ⟨p, hp, rfl⟩
    have hb := hlv p (hsub p hp)
    exact ⟨skillContribution_nonneg _ p (le_trans zero_le_one hb.1),
      skillContribution_le_one _ p hb.2⟩
  have hsum0 : 0 ≤ ((matchedSkills (ticketText t) a.skills).map
      (skillContribution (ticketText t))).sum :=
    List.sum_nonneg (fun c hc => (hc01 c hc).1)
  have hsumle : ((matchedSkills (ticketText t) a.skills).map
      (skillContribution (ticketText t))).sum
        ≤ ((matchedSkills (ticketText t) a.skills).length : ℚ) := by
    have := List.sum_le_card_nsmul
      ((matchedSkills (ticketText t) a.skills).map
        (skillContribution (ticketText t))) 1 (fun c hc => (hc01 c hc).2)
    simpa [nsmul_eq_mul] using this
  by_cases hnil : matchedSkills (ticketText t) a.skills = []
  · have hz : calculateSkillMatch t a = 0 := by
      rw [calculateSkillMatch_eq, if_pos (by rw [hnil]; rfl)]
    refine ⟨⟨le_of_eq hz.symm, ?_⟩, fun _ => hz, fun h => absurd hnil h, ?_⟩
    · rw [hz]; exact zero_le_one
    · rw [calculateSkillMatch_eq, calculateSkillMatch_eq]
      simp only [matchedSkills_filter_known]
  · have hlen : 0 < (matchedSkills (ticketText t) a.skills).length :=
      List.length_pos.mpr hnil
    have hlenQ : (0 : ℚ) < ((matchedSkills (ticketText t) a.skills).length : ℚ) := by
      exact_mod_cast hlen
    have havg1 : ((matchedSkills (ticketText t) a.skills).map
        (skillContribution (ticketText t))).sum
          / ((matchedSkills (ticketText t) a.skills).length : ℚ) ≤ 1 :=
      (div_le_one hlenQ).mpr hsumle
    have heq : calculateSkillMatch t a
        = ((matchedSkills (ticketText t) a.skills).map
            (skillContribution (ticketText t))).sum
          / ((matchedSkills (ticketText t) a.skills).length : ℚ) := by
      rw [calculateSkillMatch_eq, if_neg (by omega), min_eq_left havg1]
    refine ⟨⟨?_, ?_⟩, fun h => absurd h hnil, fun _ => heq, ?_⟩
    · rw [heq]
      exact div_nonneg hsum0 (le_of_lt hlenQ)
    · rw [heq]; exact havg1
    · rw [calculateSkillMatch_eq, calculateSkillMatch_eq]
      simp only [matchedSkills_filter_known]

/-- Concrete agent for the C4 witness: one configured skill that matches the
ticket text and one skill unknown to the configuration table. -/
def agentW4 : Agent :=
  ⟨"a4", "Dana", [("Database_SQL", 8), ("Quantum_Widgets", 5)],
   "Available", 6, 0⟩

/-- Concrete ticket for the C4 witness. -/
def ticketW4 : Ticket := ⟨"T4", "database", "backup"⟩

/-- Witness for C4 at a concrete ticket and agent (skill levels in `[1,10]`
discharged by evaluation). -/
theorem skill_relevance_score_spec_witness :
    ((0 ≤ calculateSkillMatch ticketW4 agentW4
      ∧ calculateSkillMatch ticketW4 agentW4 ≤ 1)
    ∧ (matchedSkills (ticketText ticketW4) agentW4.skills = [] →
        calculateSkillMatch ticketW4 agentW4 = 0)
    ∧ (matchedSkills (ticketText ticketW4) agentW4.skills ≠ [] →
        calculateSkillMatch ticketW4 agentW4
          = ((matchedSkills (ticketText ticketW4) agentW4.skills).map
                (skillContribution (ticketText ticketW4))).sum
              / ((matchedSkills (ticketText ticketW4) agentW4.skills).length : ℚ))
    ∧ calculateSkillMatch ticketW4
          { agentW4 with skills :=
              agentW4.skills.filter (fun p => (skillKeywords.lookup p.1).isSome) }
        = calculateSkillMatch ticketW4 agentW4) :=
  skill_relevance_score_spec ticketW4 agentW4 (by with_unfolding_all decide)

/-- Outcome of the agent loop of `_assign_single_ticket` from an arbitrary
starting state: either no available agent strictly beats the incoming best
score and the state is unchanged, or the final state records the first
available agent attaining the maximum composite score. -/
lemma selFold_spec (t : Ticket) (pr : PriorityResult)
    (wl : String → Option ℤ) :
    ∀ (l : List Agent) (s : SelState),
      (l.foldl (selStep t pr wl) s = s
        ∧ ∀ c ∈ l.filter (fun a => isAvailable a),
            compositeScore t pr wl c ≤ s.best_score)
      ∨ (∃ pre c post,
          l.filter (fun a => isAvailable a) = pre ++ c :: post
          ∧ s.best_score < compositeScore t pr wl c
          ∧ (∀ x ∈ pre, compositeScore t pr wl x < compositeScore t pr wl c)
          ∧ (∀ x ∈ post, compositeScore t pr wl x ≤ compositeScore t pr wl c)
          ∧ l.foldl (selStep t pr wl) s = chosenState t pr wl c) := by
  intro l
  induction l with
  | nil => intro s; exact Or.inl ⟨rfl, by simp⟩
  | cons a l ih =>
    intro s
    by_cases hav : isAvailable a = true
    · by_cases hgt : s.best_score < compositeScore t pr wl a
      · have hstep : selStep t pr wl s a = chosenState t pr wl a := by
          unfold selStep
          rw [if_neg (by simp [hav]), if_pos hgt]
        rcases ih (chosenState t pr wl a) with ⟨heq, hle⟩ |
          ⟨pre, c, post, hsplit, hlt, hpre, hpost, heq⟩
        · refine Or.inr ⟨[], a, l.filter (fun a => isAvailable a),
            ?_, hgt, ?_, ?_, ?_⟩
          · rw [List.filter_cons_of_pos hav]; rfl
          · intro x hx; exact absurd hx (List.not_mem_nil x)
          · intro x hx
            have hx' := hle x hx
            simpa [chosenState] using hx'
          · rw [List.foldl_cons, hstep]; exact heq
        · have hac : compositeScore t pr wl a < compositeScore t pr wl c := by
            simpa [chosenState] using hlt
          refine Or.inr ⟨a :: pre, c, post, ?_, lt_trans hgt hac, ?_,
            hpost, ?_⟩
          · rw [List.filter_cons_of_pos hav, hsplit]; rfl
          · intro x hx
            rcases List.mem_cons.mp hx with rfl | hx'
            · exact hac
            · exact hpre x hx'
          · rw [List.foldl_cons, hstep]; exact heq
      · have hstep : selStep t pr wl s a = s := by
          unfold selStep
          rw [if_neg (by simp [hav]), if_neg hgt]
        rcases ih s with ⟨heq, hle⟩ |
          ⟨pre, c, post, hsplit, hlt, hpre, hpost, heq⟩
        · refine Or.inl ⟨by rw [List.foldl_cons, hstep]; exact heq, ?_⟩
          intro c hc
          rw [List.filter_cons_of_pos hav] at hc
          rcases List.mem_cons.mp hc with rfl | hc'
          · exact le_of_not_lt hgt
          · exact hle c hc'
        · refine Or.inr ⟨a :: pre, c, post, ?_, hlt, ?_, hpost, ?_⟩
          · rw [List.filter_cons_of_pos hav, hsplit]; rfl
          · intro x hx
            rcases List.mem_cons.mp hx with rfl | hx'
            · exact lt_of_le_of_lt (le_of_not_lt hgt) hlt
            · exact hpre x hx'
          · rw [List.foldl_cons, hstep]; exact heq
    · have hav' : isAvailable a = false := by
        simpa using hav
      have hstep : selStep t pr wl s a = s := by
        unfold selStep
        rw [if_pos hav']
      rcases ih s with ⟨heq, hle⟩ |
        ⟨pre, c, post, hsplit, hlt, hpre, hpost, heq⟩
      · refine Or.inl ⟨by rw [List.foldl_cons, hstep]; exact heq, ?_⟩
        intro c hc
        rw [List.filter_cons_of_neg (by simp [hav'])] at hc
        exact hle c hc
      · refine Or.inr ⟨pre, c, post, ?_, hlt, hpre, hpost, ?_⟩
        · rw [List.filter_cons_of_neg (by simp [hav'])]; exact hsplit
        · rw [List.foldl_cons, hstep]; exact heq

/-- C10. For a ticket assigned while no agent's availability status is
(case-insensitively) "available", the emitted record carries the initial
sentinel values `final_score = -1`, `skill_match_score = 0`,
`workload_factor = 0`. -/
theorem no_available_agents_sentinel (t : Ticket) (agents : List Agent)
    (wl : String → Option ℤ)
    (h : ∀ a ∈ agents, isAvailable a = false) :
    (assignSingleTicket t agents wl).final_score = -1
    ∧ (assignSingleTicket t agents wl).skill_match_score = 0
    ∧ (assignSingleTicket t agents wl).workload_factor = 0 := by
  have hfilter : agents.filter (fun a => isAvailable a) = [] := by
    rw [List.filter_eq_nil_iff]
    intro a ha
    simp [h a ha]
  have hfold : agents.foldl
      (selStep t (analyzePriority t.title t.description) wl) initSel
      = initSel := by
    rcases selFold_spec t (analyzePriority t.title t.description) wl agents
        initSel with ⟨heq, _⟩ | ⟨pre, c, post, hsplit, _, _, _, _⟩
    · exact heq
    · rw [hfilter] at hsplit
      exact absurd hsplit (by simp)
  unfold assignSingleTicket
  rw [hfold]
  unfold finishAssignment
  rw [hfilter]
  cases agents with
  | nil => exact ⟨rfl, rfl, rfl⟩
  | cons a l => exact ⟨rfl, rfl, rfl⟩

/-- Concrete data for the C10 witness: a single Offline agent. -/
def agentsW10 : List Agent :=
  [⟨"a10", "Pat", [("Networking", 5)], "Offline", 2, 0⟩]

/-- Concrete ticket for the C10 witness. -/
def ticketW10 : Ticket := ⟨"T10", "printer toner", "low"⟩

/-- Witness for C10: with the only agent Offline the record carries the
sentinel scores. -/
theorem no_available_agents_sentinel_witness :
    (assignSingleTicket ticketW10 agentsW10
        (initWorkloads agentsW10)).final_score = -1
    ∧ (assignSingleTicket ticketW10 agentsW10
        (initWorkloads agentsW10)).skill_match_score = 0
    ∧ (assignSingleTicket ticketW10 agentsW10
        (initWorkloads agentsW10)).workload_factor = 0 :=
  no_available_agents_sentinel ticketW10 agentsW10 (initWorkloads agentsW10)
    (by with_unfolding_all decide)

/-- If some agent is available, `_assign_single_ticket` commits an available
agent from the list (either the loop winner or, degenerately, the first
available agent). -/
lemma assignSingleTicket_available (t : Ticket) (agents : List Agent)
    (wl : String → Option ℤ)
    (h : ∃ a ∈ agents, isAvailable a = true) :
    ∃ a ∈ agents, isAvailable a = true
      ∧ (assignSingleTicket t agents wl).assigned_agent_id = a.agent_id := by
  have hfilter_ne : agents.filter (fun a => isAvailable a) ≠ [] := by
    rcases h with ⟨a, ha, hav⟩
    intro hnil
    have hmem : a ∈ agents.filter (fun a => isAvailable a) :=
      List.mem_filter.mpr ⟨ha, hav⟩
    rw [hnil] at hmem
    exact absurd hmem (List.not_mem_nil a)
  rcases selFold_spec t (analyzePriority t.title t.description) wl agents
      initSel with ⟨heq, _⟩ | ⟨pre, c, post, hsplit, _, _, _, heq⟩
  · cases hf : agents.filter (fun a => isAvailable a) with
    | nil => exact absurd hf hfilter_ne
    | cons a rest =>
      have hmem : a ∈ agents.filter (fun a => isAvailable a) := by
        rw [hf]; exact List.mem_cons_self a rest
      refine ⟨a, List.mem_of_mem_filter hmem,
        (List.mem_filter.mp hmem).2, ?_⟩
      unfold assignSingleTicket
      rw [heq]
      unfold finishAssignment
      rw [hf]
      rfl
  · have hcmem : c ∈ agents.filter (fun a => isAvailable a) := by
      rw [hsplit]
      exact List.mem_append.mpr (Or.inr (List.mem_cons_self _ _))
    refine ⟨c, List.mem_of_mem_filter hcmem,
      (List.mem_filter.mp hcmem).2, ?_⟩
    unfold assignSingleTicket
    rw [heq]
    rfl

/-- Every record produced by the per-ticket loop references an available
agent, unless no agent in the list is available at all. -/
lemma runAssign_available (agents : List Agent) :
    ∀ (ts : List Ticket) (wl : String → Option ℤ)
      (recs : List AgentAssignment),
      runAssign agents ts wl = some recs →
      ∀ r ∈ recs,
        (∃ a ∈ agents, isAvailable a = true
            ∧ r.assigned_agent_id = a.agent_id)
          ∨ ∀ a ∈ agents, isAvailable a = false := by
  intro ts
  induction ts with
  | nil =>
    intro wl recs hrun r hr
    simp only [runAssign] at hrun
    rw [← Option.some_inj.mp hrun] at hr
    exact absurd hr (List.not_mem_nil r)
  | cons t ts ih =>
    intro wl recs hrun r hr
    simp only [runAssign] at hrun
    cases hlk : wl (assignSingleTicket t agents wl).assigned_agent_id with
    | none => rw [hlk] at hrun; exact absurd hrun (by simp)
    | some n =>
      rw [hlk] at hrun
      dsimp only at hrun
      cases hrec : runAssign agents ts
          (updateWl wl (assignSingleTicket t agents wl).assigned_agent_id
            (n + 1)) with
      | none => rw [hrec] at hrun; exact absurd hrun (by simp)
      | some rest =>
        rw [hrec] at hrun
        have hrecs : recs = assignSingleTicket t agents wl :: rest := by
          exact (Option.some_inj.mp hrun).symm
        rw [hrecs] at hr
        rcases List.mem_cons.mp hr with rfl | hr'
        · by_cases hex : ∃ a ∈ agents, isAvailable a = true
          · left
            rcases assignSingleTicket_available t agents wl hex with
              ⟨a, ha, hav, hid⟩
            exact ⟨a, ha, hav, hid⟩
          · right
            intro a ha
            by_contra hcon
            exact hex ⟨a, ha, by simpa using hcon⟩
        · exact ih _ rest hrec r hr'

/-- C7. Every `AgentAssignment` in the output of `assign_tickets` references
an agent whose availability status is Available, except for records produced
under the empty-candidate-pool fallback (that is, when no agent in the list
is available at all). -/
theorem assignments_reference_available_agents (d : Dataset)
    (r : AgentAssignment) (hr : r ∈ (assignTickets d).getD []) :
    (∃ a ∈ d.agents, isAvailable a = true
        ∧ r.assigned_agent_id = a.agent_id)
      ∨ ∀ a ∈ d.agents, isAvailable a = false := by
  cases hrun : assignTickets d with
  | none => rw [hrun] at hr; exact absurd hr (List.not_mem_nil r)
  | some recs =>
    rw [hrun] at hr
    exact runAssign_available d.agents (prioritizeTickets d.tickets)
      (initWorkloads d.agents) recs hrun r hr

/-- Concrete dataset for the C7 witness: one Busy agent, one ticket. -/
def datasetW7 : Dataset :=
  ⟨[⟨"a7", "Bo", [], "Busy", 3, 1⟩], [⟨"T7", "x", "y"⟩]⟩

/-- The record `assign_tickets` emits on `datasetW7`. -/
def recordW7 : AgentAssignment :=
  ⟨"T7", "a7", "Emergency assignment - no available agents found.",
   .MEDIUM, 0, 0, 0, -1⟩

/-- Witness for C7 at a concrete dataset (the membership hypothesis is
discharged by evaluating `assign_tickets`). -/
theorem assignments_reference_available_agents_witness :
    (∃ a ∈ datasetW7.agents, isAvailable a = true
        ∧ recordW7.assigned_agent_id = a.agent_id)
      ∨ ∀ a ∈ datasetW7.agents, isAvailable a = false :=
  assignments_reference_available_agents datasetW7 recordW7
    (by with_unfolding_all decide)

lemma calculateSkillMatch_nonneg (t : Ticket) (a : Agent)
    (h : ∀ p ∈ a.skills, 0 ≤ p.2) : 0 ≤ calculateSkillMatch t a := by
  rw [calculateSkillMatch_eq]
  split_ifs with h0
  · exact le_refl 0
  · refine le_min ?_ zero_le_one
    refine div_nonneg ?_ (Nat.cast_nonneg _)
    refine List.sum_nonneg ?_
    intro c hc
    rcases List.mem_map.mp hc with ⟨p, hp, rfl⟩
    exact skillContribution_nonneg _ p (h p (List.mem_of_mem_filter hp))

lemma compositeScore_nonneg (t : Ticket) (pr : PriorityResult)
    (wl : String → Option ℤ) (a : Agent)
    (hexp : 0 ≤ a.experience_level) (hsk : ∀ p ∈ a.skills, 0 ≤ p.2) :
    0 ≤ compositeScore t pr wl a := by
  unfold compositeScore
  have h1 : 0 ≤ evalSkill t a := calculateSkillMatch_nonneg t a hsk
  have h2 : 0 ≤ evalWorkloadFactor wl a := le_max_left 0 _
  have h3 : 0 ≤ evalExperienceBonus a := by
    refine le_min ?_ zero_le_one
    refine div_nonneg ?_ (by norm_num)
    exact_mod_cast hexp
  have h4 : 0 ≤ priorityMultiplier pr.priority_level := by
    cases pr.priority_level <;> norm_num [priorityMultiplier]
  have := mul_nonneg h1 (by norm_num : (0:ℚ) ≤ 0.4)
  have := mul_nonneg h2 (by norm_num : (0:ℚ) ≤ 0.25)
  have := mul_nonneg h3 (by norm_num : (0:ℚ) ≤ 0.2)
  have := mul_nonneg h4 (by norm_num : (0:ℚ) ≤ 0.15)
  linarith

/-- C6. With a non-empty candidate pool, the committed agent is the first
available agent (in list order) attaining the strictly highest composite
score `0.4*skill + 0.25*workload_factor + 0.2*experience_bonus +
0.15*priority_multiplier`, and the record's final score is that composite. -/
theorem best_agent_selection (t : Ticket) (agents : List Agent)
    (wl : String → Option ℤ)
    (hne : agents.filter (fun a => isAvailable a) ≠ [])
    (hexp : ∀ a ∈ agents, 0 ≤ a.experience_level)
    (hsk : ∀ a ∈ agents, ∀ p ∈ a.skills, 0 ≤ p.2) :
    ∃ pre c post,
      agents.filter (fun a => isAvailable a) = pre ++ c :: post
      ∧ (assignSingleTicket t agents wl).assigned_agent_id = c.agent_id
      ∧ (assignSingleTicket t agents wl).final_score
          = compositeScore t (analyzePriority t.title t.description) wl c
      ∧ compositeScore t (analyzePriority t.title t.description) wl c
          = calculateSkillMatch t c * 0.4
            + max 0 ((8 - ((wl c.agent_id).getD 0 : ℚ)) / 8) * 0.25
            + min ((c.experience_level : ℚ) / 15) 1 * 0.2
            + priorityMultiplier
                (analyzePriority t.title t.description).priority_level * 0.15
      ∧ priorityMultiplier .CRITICAL = 1 ∧ priorityMultiplier .HIGH = 0.8
      ∧ priorityMultiplier .MEDIUM = 0.6 ∧ priorityMultiplier .LOW = 0.4
      ∧ (∀ x ∈ pre,
          compositeScore t (analyzePriority t.title t.description) wl x
            < compositeScore t (analyzePriority t.title t.description) wl c)
      ∧ (∀ x ∈ agents.filter (fun a => isAvailable a),
          compositeScore t (analyzePriority t.title t.description) wl x
            ≤ compositeScore t (analyzePriority t.title t.description) wl c) := by
  rcases selFold_spec t (analyzePriority t.title t.description) wl agents
      initSel with ⟨_, hle⟩ | ⟨pre, c, post, hsplit, _, hpre, hpost, heq⟩
  · exfalso
    cases hf : agents.filter (fun a => isAvailable a) with
    | nil => exact hne hf
    | cons c0 rest =>
      have hc0 : c0 ∈ agents.filter (fun a => isAvailable a) := by
        rw [hf]; exact List.mem_cons_self c0 rest
      have hc0a : c0 ∈ agents := List.mem_of_mem_filter hc0
      have h1 := hle c0 hc0
      have h2 := compositeScore_nonneg t
        (analyzePriority t.title t.description) wl c0 (hexp c0 hc0a)
        (hsk c0 hc0a)
      have : initSel.best_score = -1 := rfl
      rw [this] at h1
      linarith
  · have hcmem : c ∈ agents.filter (fun a => isAvailable a) := by
      rw [hsplit]
      exact List.mem_append.mpr (Or.inr (List.mem_cons_self _ _))
    refine ⟨pre, c, post, hsplit, ?_, ?_, rfl, rfl, rfl, rfl, rfl, hpre, ?_⟩
    · unfold assignSingleTicket
      rw [heq]
      rfl
    · unfold assignSingleTicket
      rw [heq]
      rfl
    · intro x hx
      rw [hsplit] at hx
      rcases List.mem_append.mp hx with hx' | hx'
      · exact le_of_lt (hpre x hx')
      · rcases List.mem_cons.mp hx' with rfl | hx''
        · exact le_refl _
        · exact hpost x hx''

/-- Concrete data for the C6 witness: two available agents. -/
def agentsW6 : List Agent :=
  [⟨"a61", "Kim", [("Networking", 7)], "Available", 9, 2⟩,
   ⟨"a62", "Lee", [], "Busy", 12, 0⟩,
   ⟨"a63", "Max", [("Printer_Support", 4)], "Available", 3, 0⟩]

/-- Concrete ticket for the C6 witness. -/
def ticketW6 : Ticket := ⟨"T6", "vpn connection", "not working for the team"⟩

/-- Witness for C6 at a concrete ticket, agent list, and workload map. -/
theorem best_agent_selection_witness :
    ∃ pre c post,
      agentsW6.filter (fun a => isAvailable a) = pre ++ c :: post
      ∧ (assignSingleTicket ticketW6 agentsW6
          (initWorkloads agentsW6)).assigned_agent_id = c.agent_id
      ∧ (assignSingleTicket ticketW6 agentsW6
          (initWorkloads agentsW6)).final_score
          = compositeScore ticketW6
              (analyzePriority ticketW6.title ticketW6.description)
              (initWorkloads agentsW6) c
      ∧ compositeScore ticketW6
            (analyzePriority ticketW6.title ticketW6.description)
            (initWorkloads agentsW6) c
          = calculateSkillMatch ticketW6 c * 0.4
            + max 0 ((8 - ((initWorkloads agentsW6 c.agent_id).getD 0 : ℚ)) / 8)
                * 0.25
            + min ((c.experience_level : ℚ) / 15) 1 * 0.2
            + priorityMultiplier
                (analyzePriority ticketW6.title
                  ticketW6.description).priority_level * 0.15
      ∧ priorityMultiplier .CRITICAL = 1 ∧ priorityMultiplier .HIGH = 0.8
      ∧ priorityMultiplier .MEDIUM = 0.6 ∧ priorityMultiplier .LOW = 0.4
      ∧ (∀ x ∈ pre,
          compositeScore ticketW6
              (analyzePriority ticketW6.title ticketW6.description)
              (initWorkloads agentsW6) x
            < compositeScore ticketW6
                (analyzePriority ticketW6.title ticketW6.description)
                (initWorkloads agentsW6) c)
      ∧ (∀ x ∈ agentsW6.filter (fun a => isAvailable a),
          compositeScore ticketW6
              (analyzePriority ticketW6.title ticketW6.description)
              (initWorkloads agentsW6) x
            ≤ compositeScore ticketW6
                (analyzePriority ticketW6.title ticketW6.description)
                (initWorkloads agentsW6) c) :=
  best_agent_selection ticketW6 agentsW6 (initWorkloads agentsW6)
    (by with_unfolding_all decide) (by with_unfolding_all decide)
    (by with_unfolding_all decide)

/-- Tickets with equal sort keys compare `ticketLE` both ways. -/
lemma ticketLE_of_key_eq {a b : Ticket} (h : ticketKey a = ticketKey b) :
    ticketLE a b := by
  unfold ticketLE
  rw [h]
  exact Or.inr ⟨rfl, le_refl _⟩

/-- Inserting `a` keeps the sublist of any fixed key intact: `a` lands in
front of every element with its own key and filtering another key ignores
`a`. -/
lemma filter_key_orderedInsert (k : ℕ × ℚ) (a : Ticket) (L : List Ticket) :
    (List.orderedInsert ticketLE a L).filter
        (fun t => decide (ticketKey t = k))
      = if ticketKey a = k
        then a :: L.filter (fun t => decide (ticketKey t = k))
        else L.filter (fun t => decide (ticketKey t = k)) := by
  rw [List.orderedInsert_eq_take_drop, List.filter_append]
  by_cases hk : ticketKey a = k
  · rw [if_pos hk]
    have htw : (L.takeWhile fun b => decide ¬ticketLE a b).filter
        (fun t => decide (ticketKey t = k)) = [] := by
      rw [List.filter_eq_nil_iff]
      intro b hb
      have hnab : ¬ ticketLE a b := by
        have := List.mem_takeWhile_imp hb
        simpa using this
      simp only [decide_eq_true_eq]
      intro hbk
      exact hnab (ticketLE_of_key_eq (by rw [hk, hbk]))
    rw [htw, List.filter_cons, if_pos (by simpa using hk)]
    conv_rhs =>
      rw [← List.takeWhile_append_dropWhile
        (p := fun b => decide ¬ticketLE a b) (l := L)]
    rw [List.filter_append, htw]
    rfl
  · rw [if_neg hk]
    rw [List.filter_cons, if_neg (by simpa using hk)]
    conv_rhs =>
      rw [← List.takeWhile_append_dropWhile
        (p := fun b => decide ¬ticketLE a b) (l := L)]
    rw [List.filter_append]

/-- Insertion sort preserves the sublist of every fixed key (stability). -/
lemma filter_key_insertionSort (k : ℕ × ℚ) :
    ∀ l : List Ticket,
      (List.insertionSort ticketLE l).filter
          (fun t => decide (ticketKey t = k))
        = l.filter (fun t => decide (ticketKey t = k)) := by
  intro l
  induction l with
  | nil => rfl
  | cons a l ih =>
    show (List.orderedInsert ticketLE a (List.insertionSort ticketLE l)).filter
        (fun t => decide (ticketKey t = k)) = _
    rw [filter_key_orderedInsert, List.filter_cons]
    by_cases hk : ticketKey a = k
    · rw [if_pos hk, if_pos (by simpa using hk), ih]
    · rw [if_neg hk, if_neg (by simpa using hk), ih]

/-- C5. `_prioritize_tickets` is a permutation of the input, sorted ascending
by the key `(priority level ordinal, negated priority score)`, and stable:
tickets tying on both key components keep their original relative order. -/
theorem ticket_ordering_stable_sort (tickets : List Ticket) :
    (prioritizeTickets tickets).Perm tickets
    ∧ List.Sorted ticketLE (prioritizeTickets tickets)
    ∧ ∀ k : ℕ × ℚ,
        (prioritizeTickets tickets).filter (fun t => decide (ticketKey t = k))
          = tickets.filter (fun t => decide (ticketKey t = k)) := by
  refine ⟨List.perm_insertionSort ticketLE tickets,
    List.sorted_insertionSort ticketLE tickets,
    fun k => filter_key_insertionSort k tickets⟩

/-- Folding dict insertions leaves keys untouched that no inserted agent
carries. -/
lemma initWorkloads_fold_preserve :
    ∀ (l : List Agent) (m : String → Option ℤ) (k : String),
      (∀ a ∈ l, a.agent_id ≠ k) →
      l.foldl (fun m a => updateWl m a.agent_id a.current_load) m k = m k := by
  intro l
  induction l with
  | nil => intro m k _; rfl
  | cons a l ih =>
    intro m k h
    rw [List.foldl_cons]
    rw [ih _ k (fun b hb => h b (List.mem_cons_of_mem a hb))]
    unfold updateWl
    rw [if_neg (by
      simp only [beq_iff_eq]
      exact fun hh => h a (List.mem_cons_self a l) hh.symm)]

/-- With pairwise-distinct agent ids, the initial workload dict maps each
agent's id to its `current_load`. -/
lemma initWorkloads_spec :
    ∀ (l : List Agent),
      (l.map (fun a => a.agent_id)).Nodup →
      ∀ a ∈ l, initWorkloads l a.agent_id = some a.current_load := by
  intro l
  induction l with
  | nil => intro _ a ha; exact absurd ha (List.not_mem_nil a)
  | cons b l ih =>
    intro hnd a ha
    have hnd' : (∀ x ∈ l, ¬ x.agent_id = b.agent_id)
        ∧ (l.map (fun a => a.agent_id)).Nodup := by simpa using hnd
    rcases List.mem_cons.mp ha with rfl | ha'
    · unfold initWorkloads
      rw [List.foldl_cons]
      rw [initWorkloads_fold_preserve l _ a.agent_id ?_]
      · unfold updateWl
        rw [if_pos (by simp)]
      · intro c hc
        exact hnd'.1 c hc
    · have := ih hnd'.2 a ha'
      unfold initWorkloads at this ⊢
      rw [List.foldl_cons]
      by_cases hid : b.agent_id = a.agent_id
      · exfalso
        exact hnd'.1 a ha' hid.symm
      · rw [← this]
        have hpre : ∀ (m : String → Option ℤ),
            l.foldl (fun m a => updateWl m a.agent_id a.current_load) m
                a.agent_id
              = l.foldl (fun m a => updateWl m a.agent_id a.current_load)
                  (fun _ => none) a.agent_id → True := fun _ _ => trivial
        clear hpre
        -- both folds agree at `a.agent_id` because the initial maps agree
        -- there; prove by a generic congruence on the fold
        have hcong : ∀ (l' : List Agent) (m₁ m₂ : String → Option ℤ)
            (k : String), m₁ k = m₂ k →
            l'.foldl (fun m a => updateWl m a.agent_id a.current_load) m₁ k
              = l'.foldl (fun m a => updateWl m a.agent_id a.current_load)
                  m₂ k := by
          intro l'
          induction l' with
          | nil => intro m₁ m₂ k h; exact h
          | cons c l' ihc =>
            intro m₁ m₂ k h
            rw [List.foldl_cons, List.foldl_cons]
            refine ihc _ _ k ?_
            unfold updateWl
            by_cases hkc : k == c.agent_id
            · rw [if_pos hkc, if_pos hkc]
            · rw [if_neg hkc, if_neg hkc]; exact h
        refine hcong l _ _ a.agent_id ?_
        unfold updateWl
        rw [if_neg (by simpa using fun h => hid h.symm)]

/-- C8. Within one run: the workload dict is initialized from each agent's
`current_load`; `assign_tickets` threads it through the per-ticket loop
starting fresh from that initial dict; and each step increments the chosen
agent's counter by exactly one before the next ticket, so every counter is
monotonically non-decreasing. -/
theorem workload_monotone_update (d : Dataset) (t : Ticket)
    (ts : List Ticket) (wl : String → Option ℤ)
    (recs : List AgentAssignment)
    (hnd : (d.agents.map (fun a => a.agent_id)).Nodup)
    (hrun : runAssign d.agents (t :: ts) wl = some recs) :
    (∀ a ∈ d.agents, initWorkloads d.agents a.agent_id = some a.current_load)
    ∧ assignTickets d
        = runAssign d.agents (prioritizeTickets d.tickets)
            (initWorkloads d.agents)
    ∧ ∃ n rest,
        wl (assignSingleTicket t d.agents wl).assigned_agent_id = some n
        ∧ runAssign d.agents ts
            (updateWl wl
              (assignSingleTicket t d.agents wl).assigned_agent_id (n + 1))
            = some rest
        ∧ recs = assignSingleTicket t d.agents wl :: rest
        ∧ ∀ s m, wl s = some m →
            ∃ m', updateWl wl
                (assignSingleTicket t d.agents wl).assigned_agent_id (n + 1) s
              = some m' ∧ m ≤ m' := by
  refine ⟨initWorkloads_spec d.agents hnd, rfl, ?_⟩
  simp only [runAssign] at hrun
  cases hlk : wl (assignSingleTicket t d.agents wl).assigned_agent_id with
  | none => rw [hlk] at hrun; exact absurd hrun (by simp)
  | some n =>
    rw [hlk] at hrun
    dsimp only at hrun
    cases hrec : runAssign d.agents ts
        (updateWl wl (assignSingleTicket t d.agents wl).assigned_agent_id
          (n + 1)) with
    | none => rw [hrec] at hrun; exact absurd hrun (by simp)
    | some rest =>
      rw [hrec] at hrun
      refine ⟨n, rest, rfl, hrec, (Option.some_inj.mp hrun).symm, ?_⟩
      intro s m hm
      unfold updateWl
      by_cases hs : s == (assignSingleTicket t d.agents wl).assigned_agent_id
      · refine ⟨n + 1, by rw [if_pos hs], ?_⟩
        have hseq : s = (assignSingleTicket t d.agents wl).assigned_agent_id :=
          by simpa using hs
        rw [hseq] at hm
        rw [hlk] at hm
        have : m = n := by simpa using hm.symm
        omega
      · exact ⟨m, by rw [if_neg hs]; exact hm, le_refl m⟩

/-- Concrete dataset for the C8 witness: one available agent, one ticket. -/
def datasetW8 : Dataset :=
  ⟨[⟨"a8", "Ada", [], "Available", 0, 0⟩], [⟨"T8", "q", "r"⟩]⟩

/-- The single record `assign_tickets` emits on `datasetW8`. -/
def recordW8 : AgentAssignment :=
  ⟨"T8", "a8",
   "Assigned to Ada (a8) due to availability with low current workload.",
   .MEDIUM, 0, 0, 1, 0.34⟩

set_option maxRecDepth 100000 in
/-- Witness for C8 at a concrete dataset (distinct ids and the run equation
discharged by evaluation). -/
theorem workload_monotone_update_witness :
    (∀ a ∈ datasetW8.agents,
      initWorkloads datasetW8.agents a.agent_id = some a.current_load)
    ∧ assignTickets datasetW8
        = runAssign datasetW8.agents (prioritizeTickets datasetW8.tickets)
            (initWorkloads datasetW8.agents)
    ∧ ∃ n rest,
        initWorkloads datasetW8.agents
            (assignSingleTicket ⟨"T8", "q", "r"⟩ datasetW8.agents
              (initWorkloads datasetW8.agents)).assigned_agent_id = some n
        ∧ runAssign datasetW8.agents []
            (updateWl (initWorkloads datasetW8.agents)
              (assignSingleTicket ⟨"T8", "q", "r"⟩ datasetW8.agents
                (initWorkloads datasetW8.agents)).assigned_agent_id (n + 1))
            = some rest
        ∧ [recordW8] = assignSingleTicket ⟨"T8", "q", "r"⟩ datasetW8.agents
              (initWorkloads datasetW8.agents) :: rest
        ∧ ∀ s m, initWorkloads datasetW8.agents s = some m →
            ∃ m', updateWl (initWorkloads datasetW8.agents)
                (assignSingleTicket ⟨"T8", "q", "r"⟩ datasetW8.agents
                  (initWorkloads datasetW8.agents)).assigned_agent_id
                (n + 1) s
              = some m' ∧ m ≤ m' :=
  workload_monotone_update datasetW8 ⟨"T8", "q", "r"⟩ []
    (initWorkloads datasetW8.agents) [recordW8]
    (by with_unfolding_all decide) (by with_unfolding_all decide)

/-- C9. `assign_tickets` is deterministic: the embedding is a pure function
of the dataset (the source draws on no randomness, time, threading, or
under-determined iteration order — Python dict iteration is insertion-
ordered), so identical inputs give identical ordered outputs, every record
field included. -/
theorem assign_tickets_deterministic (d₁ d₂ : Dataset) (h : d₁ = d₂) :
    assignTickets d₁ = assignTickets d₂ := by
  rw [h]

/-- Witness for C9: two runs on the same concrete dataset agree. -/
theorem assign_tickets_deterministic_witness :
    assignTickets ⟨[⟨"a9", "Ng", [], "Available", 1, 0⟩],
        [⟨"T9", "u", "v"⟩]⟩
      = assignTickets ⟨[⟨"a9", "Ng", [], "Available", 1, 0⟩],
          [⟨"T9", "u", "v"⟩]⟩ :=
  assign_tickets_deterministic _ _ rfl

/-- Concrete ticket exercising the C1 failing input. -/
def ticketW1 : Ticket := ⟨"T1", "x", "y"⟩

set_option maxRecDepth 100000 in
/-- C1 (code bug).  With a non-empty agent list and no available agent,
`assign_tickets` does complete and every record references the first agent
with the emergency rationale (last conjunct).  But with an *empty* agent
list, `_assign_single_ticket` builds the placeholder record referencing
`agent_001` (middle conjuncts) and `assign_tickets` then raises `KeyError`
on `agent_workloads['agent_001'] += 1` — modelled as `none` (first
conjunct) — instead of returning that record. -/
theorem empty_agent_list_keyerror :
    assignTickets ⟨[], [ticketW1]⟩ = none
    ∧ (assignSingleTicket ticketW1 [] (initWorkloads [])).assigned_agent_id
        = "agent_001"
    ∧ (assignSingleTicket ticketW1 [] (initWorkloads [])).rationale
        = "Emergency assignment - no available agents found."
    ∧ assignTickets ⟨[⟨"b1", "Ed", [], "Offline", 1, 0⟩], [ticketW1]⟩
        = some [⟨"T1", "b1",
            "Emergency assignment - no available agents found.",
            .MEDIUM, 0, 0, 0, -1⟩] := by
  refine ⟨?_, ?_, ?_, ?_⟩
  · with_unfolding_all decide
  · with_unfolding_all decide
  · with_unfolding_all decide
  · with_unfolding_all decide
